import Mathlib

/-!
Verification of `server.py`: an MCP server exposing a Maven manifest editor
(`update_library_version`) and an LLM-backed compatibility checker
(`check_compatibility`).  The XML document model, the dependency search and
rewrite, the file-scanning heuristics, snippet truncation and assembly, and
the HTTP-client result handling are embedded as executable Lean definitions
translated from the Python source.
-/

namespace Server

/-- A namespace-qualified XML tag, as `xml.etree.ElementTree` sees it:
a tag `{uri}local` is the pair of the namespace URI and the local name. -/
structure QName where
  ns : String
  name : String
deriving DecidableEq, Repr

mutual

/-- An XML element: tag, attributes, optional text, child elements.
Models an `ElementTree` element in the fields `update_library_version`
reads or writes. -/
inductive XML : Type where
  | elem (tag : QName) (attrs : List (String × String)) (text : Option String)
      (children : XMLList) : XML
deriving DecidableEq

/-- A list of sibling XML elements (mutually defined with `XML` so that
recursion over documents is structural). -/
inductive XMLList : Type where
  | nil : XMLList
  | cons (c : XML) (cs : XMLList) : XMLList
deriving DecidableEq

end

def XMLList.ofList : List XML → XMLList
  | [] => .nil
  | c :: cs => .cons c (XMLList.ofList cs)

def XMLList.toList : XMLList → List XML
  | .nil => []
  | .cons c cs => c :: XMLList.toList cs

def XML.tag : XML → QName
  | .elem t _ _ _ => t

def XML.text : XML → Option String
  | .elem _ _ tx _ => tx

def XML.children : XML → XMLList
  | .elem _ _ _ cs => cs

/-- The Maven POM default namespace registered by the code. -/
def mavenNS : String := "http://maven.apache.org/POM/4.0.0"

def depTag : QName := ⟨mavenNS, "dependency"⟩

def artifactIdTag : QName := ⟨mavenNS, "artifactId"⟩

def versionTag : QName := ⟨mavenNS, "version"⟩

/-- Model of `element.find("ns:t", namespace)`: the first direct child with the
qualified tag, if any. -/
def findChild (q : QName) : XMLList → Option XML
  | .nil => none
  | .cons c cs => if c.tag = q then some c else findChild q cs

mutual

/-- An element followed by all its proper descendants, in document order. -/
def descE : XML → List XML
  | .elem t a tx ccs => .elem t a tx ccs :: descL ccs

/-- All elements of a sibling list together with their subtrees, in document
order.  Applied to the children of a root element this is exactly the node
list that `root.findall(".//...")` iterates over (before tag filtering). -/
def descL : XMLList → List XML
  | .nil => []
  | .cons c cs => descE c ++ descL cs

end

/-- The test `artifact_id is not None and artifact_id.text == library_name`
on a `<dependency>` element. -/
def hasArtifact (library_name : String) (e : XML) : Bool :=
  e.tag = depTag &&
    (match findChild artifactIdTag e.children with
     | some a => a.text = some library_name
     | none => false)

/-- A dependency element the loop body actually rewrites: matching tag,
matching `artifactId` text, and a `version` child present. -/
def isMatch (library_name : String) (e : XML) : Bool :=
  hasArtifact library_name e && (findChild versionTag e.children).isSome

def setText (e : XML) (s : String) : XML :=
  match e with
  | .elem t a _ cs => .elem t a (some s) cs

/-- Performs `version.text = new_version` on the first `version` child, returning the
old text; `none` when there is no `version` child. -/
def setVersionChildren (new_version : String) : XMLList → Option (Option String × XMLList)
  | .nil => none
  | .cons c cs =>
      if c.tag = versionTag then some (c.text, .cons (setText c new_version) cs)
      else
        match setVersionChildren new_version cs with
        | some (old, cs') => some (old, .cons c cs')
        | none => none

mutual

/-- The first rewrite target in the subtree rooted at an element (the
element itself considered first, then its descendants in document order). -/
def firstE (library_name : String) : XML → Option XML
  | .elem t a tx ccs =>
      if isMatch library_name (.elem t a tx ccs) then some (.elem t a tx ccs)
      else firstL library_name ccs

/-- The first rewrite target among a sibling list and their subtrees. -/
def firstL (library_name : String) : XMLList → Option XML
  | .nil => none
  | .cons c cs =>
      match firstE library_name c with
      | some e => some e
      | none => firstL library_name cs

end

mutual

/-- The loop body applied to the subtree rooted at one element: if the
element itself is a dependency with matching `artifactId` and a `version`
child, overwrite that child's text and stop; otherwise continue into its
descendants. -/
def tryElem (library_name new_version : String) : XML → Option (XML × Option String)
  | .elem t a tx ccs =>
      if isMatch library_name (.elem t a tx ccs) then
        match setVersionChildren new_version ccs with
        | some (old, ccs') => some (.elem t a tx ccs', old)
        | none => none
      else
        match tryList library_name new_version ccs with
        | some (ccs', old) => some (.elem t a tx ccs', old)
        | none => none

/-- The `for dependency in root.findall(".//ns:dependency", ...)` loop over
a sibling list: rewrite the first matching dependency in document order,
returning the rewritten list and the old version text, or `none` when no
dependency matches. -/
def tryList (library_name new_version : String) : XMLList → Option (XMLList × Option String)
  | .nil => none
  | .cons c cs =>
      match tryElem library_name new_version c with
      | some (c', old) => some (.cons c' cs, old)
      | none =>
        match tryList library_name new_version cs with
        | some (cs', old) => some (.cons c cs', old)
        | none => none

end

/-- The `version.text` of an element's first `version` child. -/
def oldOf (e : XML) : Option String :=
  match findChild versionTag e.children with
  | some vc => vc.text
  | none => none

/-- The `{status, message}` dictionary returned by the tools. -/
inductive ToolResult where
  | ok (message : String)
  | err (message : String)
deriving DecidableEq, Repr

/-- Python `f"...{x}..."` on an optional string: `None` prints as `"None"`. -/
def pyStr : Option String → String
  | none => "None"
  | some s => s

/-- Model of `update_library_version(code_dir, library_name, new_version)`.
The directory is modelled by its `pom.xml`: `none` when the file is absent,
`some doc` its parsed document otherwise (the XML parser/writer is the
external collaborator; the document tree is the file's content).  Returns
the tool result together with the file state after the call. -/
def update_library_version (pom : Option XML) (library_name new_version : String) :
    ToolResult × Option XML :=
  match pom with
  | none => (.err "pom.xml not found in the directory", none)
  | some doc =>
    match doc with
    | .elem t a tx cs =>
      match tryList library_name new_version cs with
      | none =>
          (.err ("Library " ++ library_name ++ " not found in pom.xml"), some doc)
      | some (cs', old) =>
          (.ok ("Updated " ++ library_name ++ " from " ++ pyStr old ++ " to " ++ new_version),
           some (.elem t a tx cs'))

mutual

/-- Relation `OneTextChangeE v old e e'`: the document `e'` is `e` with the text of
exactly one (sub)element overwritten by `v`; that element's tag is the
Maven `version` tag and its previous text was `old`.  Every other tag,
attribute list, text and child is untouched. -/
inductive OneTextChangeE (v : String) (old : Option String) : XML → XML → Prop where
  | self (a : List (String × String)) (cs : XMLList) :
      OneTextChangeE v old (.elem versionTag a old cs) (.elem versionTag a (some v) cs)
  | deep (t : QName) (a : List (String × String)) (tx : Option String) (cs cs' : XMLList) :
      OneTextChangeL v old cs cs' → OneTextChangeE v old (.elem t a tx cs) (.elem t a tx cs')

/-- Sibling-list version of `OneTextChangeE`: exactly one list entry differs,
and it differs by `OneTextChangeE`. -/
inductive OneTextChangeL (v : String) (old : Option String) : XMLList → XMLList → Prop where
  | head (c c' : XML) (cs : XMLList) :
      OneTextChangeE v old c c' → OneTextChangeL v old (.cons c cs) (.cons c' cs)
  | tail (c : XML) (cs cs' : XMLList) :
      OneTextChangeL v old cs cs' → OneTextChangeL v old (.cons c cs) (.cons c cs')

end

/-! ## String primitives used by the scanner -/

/-- Whether one character list starts with another. -/
def isPrefixOfL : List Char → List Char → Bool
  | [], _ => true
  | _ :: _, [] => false
  | a :: as, b :: bs => a == b && isPrefixOfL as bs

/-- Python `needle in hay` on strings: contiguous-substring test. -/
def containsSub (needle : List Char) : List Char → Bool
  | [] => isPrefixOfL needle []
  | c :: t => isPrefixOfL needle (c :: t) || containsSub needle t

def strContains (hay needle : String) : Bool :=
  containsSub needle.data hay.data

/-- Python `s.endswith(suffix)`. -/
def strEndsWith (s suffix : String) : Bool :=
  isPrefixOfL suffix.data.reverse s.data.reverse

/-- Python `s.lower()` (ASCII case folding). -/
def strLower (s : String) : String :=
  String.mk (s.data.map Char.toLower)

/-! ## File scanning and snippet assembly (`check_compatibility`) -/

/-- A file met during `os.walk`: its relative path (what `os.path.relpath`
yields), its base name (what the extension tests use), and its content —
`none` models a file whose `open`/`read` raises (the exception is caught and
the file skipped). -/
structure SrcFile where
  relPath : String
  fname : String
  content : Option String
deriving DecidableEq, Repr

/-- The directory a compatibility check scans: the files in `os.walk` order,
and the content of `<code_dir>/pom.xml` when that file exists and is
readable (`none` models both absence and a read error, which is caught). -/
structure CodeDir where
  walk : List SrcFile
  pomContent : Option String
deriving DecidableEq, Repr

/-- Why a file was selected, per the spec's `matchReason` enum. -/
inductive MatchReason where
  | directNameMatch
  | importMatch
  | dependencyDeclarationMatch
deriving DecidableEq, Repr

/-- A file included in the snippet block: relative path, (possibly
truncated) content, and the match reason — `none` for the `pom.xml`
fallback candidate, which no heuristic selected. -/
structure Candidate where
  relPath : String
  content : String
  reason : Option MatchReason
deriving DecidableEq, Repr

/-- The marker substrings checked for Spring libraries. -/
def springImports : List String :=
  ["org.springframework", "springframework", "@Controller", "@RestController",
   "@Service", "@Repository", "@Component", "@RequestMapping"]

/-- Model of `imports_to_check`: the Spring markers when the lowercased library name
contains `"spring"`, empty otherwise. -/
def importsToCheck (library_name : String) : List String :=
  if strContains (strLower library_name) "spring" then springImports else []

/-- The allow-listed extensions:
`file.endswith(('.java', '.xml', '.properties', '.yml', '.yaml'))`. -/
def hasSourceExt (fname : String) : Bool :=
  strEndsWith fname ".java" || strEndsWith fname ".xml" || strEndsWith fname ".properties" ||
    strEndsWith fname ".yml" || strEndsWith fname ".yaml"

/-- The `is_relevant` decision for one readable file, following the
`if`/`elif` chain of the source: literal name first; otherwise, when the
marker list is non-empty, only the marker test runs; the
dependency-declaration test runs only when the marker list is empty. -/
def classifyContent (library_name : String) (imports : List String)
    (fname content : String) : Option MatchReason :=
  if strContains content library_name then some .directNameMatch
  else if !imports.isEmpty then
    if imports.any (fun s => strContains content s) then some .importMatch else none
  else if strEndsWith fname ".xml" && strContains content "dependency" &&
      (strContains (strLower content) "spring" ||
       strContains (strLower content) (strLower library_name)) then
    some .dependencyDeclarationMatch
  else none

/-- Computes `content[:2000] + "... (truncated)"` when the content is longer than
2000 characters. -/
def truncateContent (c : String) : String :=
  if 2000 < c.length then String.mk (c.data.take 2000) ++ "... (truncated)" else c

/-- The whole per-file treatment: extension allow-list, tolerated read
failure, relevance chain, truncation. -/
def classifyFile (library_name : String) (f : SrcFile) : Option Candidate :=
  if hasSourceExt f.fname then
    match f.content with
    | none => none
    | some c =>
      match classifyContent library_name (importsToCheck library_name) f.fname c with
      | some r => some ⟨f.relPath, truncateContent c, some r⟩
      | none => none
  else none

/-- The directory walk: all selected candidates in discovery order. -/
def scan (library_name : String) (walk : List SrcFile) : List Candidate :=
  walk.filterMap (classifyFile library_name)

/-- Model of `code_snippets` after the fallback step: when the heuristics selected
nothing, the root `pom.xml` (untruncated) is appended when present and
readable. -/
def candidates (library_name : String) (dir : CodeDir) : List Candidate :=
  let s := scan library_name dir.walk
  if s.isEmpty then
    match dir.pomContent with
    | some c => [⟨"pom.xml", c, none⟩]
    | none => []
  else s

/-- Model of `code_snippets[:5]`: the files actually rendered into the prompt. -/
def snippetFiles (library_name : String) (dir : CodeDir) : List Candidate :=
  (candidates library_name dir).take 5

/-- Model of `snippets_text`: each rendered file as a labeled block. -/
def snippetsText (cs : List Candidate) : String :=
  cs.foldl (fun acc c => acc ++ "--- " ++ c.relPath ++ " ---\n" ++ c.content ++ "\n\n") ""

/-- The fixed prompt template with the four substitutions. -/
def buildPrompt (library_name old_version new_version snippets_text : String) : String :=
  "\n    I'm upgrading " ++ library_name ++ " from version " ++ old_version ++ " to " ++
    new_version ++
    ".\n    \n    Please analyze if the new version is compatible with our current code.\n" ++
    "    Focus on deprecated functions/methods, API changes, deprecated features, " ++
    "and breaking code changes.\n    \n    " ++
    "Here are code snippets that use this library:\n    \n    " ++ snippets_text ++
    "\n    \n    Provide a detailed compatibility assessment and suggestions " ++
    "for any necessary code changes.\n    "

/-- What the surrounding `try` block observes of the HTTP call: a response
with a status code, a raw body text, and the outcome of evaluating
`response.json()["content"][0]["text"]` (`Except.error` when that
extraction would raise); or an exception during transport, carrying its
message. -/
inductive HttpOutcome where
  | resp (status : Nat) (bodyText : String) (firstBlock : Except String String)
  | exn (msg : String)

/-- The structured dictionary `check_compatibility` returns. -/
inductive CheckResult where
  | success (compatibility_analysis : String)
  | error (message : String)
deriving DecidableEq, Repr

/-- The response handling of the `try`/`except` around the HTTP POST. -/
def clientResult : HttpOutcome → CheckResult
  | .resp status bodyText firstBlock =>
      if status = 200 then
        match firstBlock with
        | .ok t => .success t
        | .error m => .error ("Error communicating with Claude API: " ++ m)
      else .error ("Failed to get response from Claude API: " ++ bodyText)
  | .exn m => .error ("Error communicating with Claude API: " ++ m)

/-- Model of `check_compatibility(code_dir, library_name, old_version, new_version)`:
scan, assemble snippets, build the prompt, send it; `http` is the external
endpoint's behavior as a function of the outbound prompt. -/
def check_compatibility (dir : CodeDir) (library_name old_version new_version : String)
    (http : String → HttpOutcome) : CheckResult :=
  let snips := snippetFiles library_name dir
  let prompt := buildPrompt library_name old_version new_version (snippetsText snips)
  clientResult (http prompt)

/-! ## Lemmas about the dependency search and rewrite -/

theorem svc_none (v : String) : ∀ cs : XMLList,
    findChild versionTag cs = none → setVersionChildren v cs = none
  | .nil, _ => rfl
  | .cons c cs, h => by
      unfold findChild at h
      unfold setVersionChildren
      by_cases hc : c.tag = versionTag
      · simp [hc] at h
      · simp only [hc, if_false] at h ⊢
        simp [if_neg hc, svc_none v cs h]

theorem svc_some (v : String) : ∀ (cs : XMLList) (vc : XML),
    findChild versionTag cs = some vc →
    ∃ cs', setVersionChildren v cs = some (vc.text, cs')
  | .nil, vc, h => by simp [findChild] at h
  | .cons c cs, vc, h => by
      unfold findChild at h
      by_cases hc : c.tag = versionTag
      · simp only [hc, if_true] at h
        cases h
        exact ⟨.cons (setText c v) cs, by simp [setVersionChildren, hc]⟩
      · simp only [hc, if_false] at h
        obtain ⟨cs', hcs'⟩ := svc_some v cs vc h
        exact ⟨.cons c cs', by simp [setVersionChildren, hc, hcs']⟩

theorem svc_frame (v : String) : ∀ (cs : XMLList) (old : Option String) (cs' : XMLList),
    setVersionChildren v cs = some (old, cs') → OneTextChangeL v old cs cs'
  | .nil, old, cs', h => by simp [setVersionChildren] at h
  | .cons c cs, old, cs', h => by
      unfold setVersionChildren at h
      by_cases hc : c.tag = versionTag
      · simp only [hc, if_true, Option.some.injEq, Prod.mk.injEq] at h
        obtain ⟨h1, h2⟩ := h
        subst h1
        subst h2
        cases c with
        | elem t a tx ccs =>
          have ht : t = versionTag := hc
          subst ht
          exact .head _ _ _ (by exact OneTextChangeE.self a ccs)
      · simp only [hc, if_false] at h
        cases hrec : setVersionChildren v cs with
        | none => rw [hrec] at h; simp at h
        | some p =>
          rw [hrec] at h
          cases p with
          | mk o cs'' =>
            simp only [Option.some.injEq, Prod.mk.injEq] at h
            obtain ⟨h1, h2⟩ := h
            subst h1
            subst h2
            exact .tail _ _ _ (svc_frame v cs o cs'' hrec)

mutual

theorem firstE_eq_find (n : String) (e : XML) :
    firstE n e = (descE e).find? (isMatch n) := by
  cases e with
  | elem t a tx ccs =>
    rw [firstE, descE, List.find?]
    cases h : isMatch n (XML.elem t a tx ccs) with
    | true => rfl
    | false => exact firstL_eq_find n ccs

theorem firstL_eq_find (n : String) (cs : XMLList) :
    firstL n cs = (descL cs).find? (isMatch n) := by
  cases cs with
  | nil => rfl
  | cons c cs =>
    rw [firstL, descL, List.find?_append, firstE_eq_find n c, firstL_eq_find n cs]
    cases (descE c).find? (isMatch n) <;> simp [Option.or]

end

mutual

theorem tryElem_snd (n v : String) (e : XML) :
    (tryElem n v e).map Prod.snd = (firstE n e).map oldOf := by
  cases e with
  | elem t a tx ccs =>
    rw [tryElem, firstE]
    cases h : isMatch n (XML.elem t a tx ccs) with
    | true =>
      simp only [if_true]
      have hv : (findChild versionTag ccs).isSome := by
        have h' := h
        unfold isMatch at h'
        have := (Bool.and_eq_true _ _).mp h'
        simpa [XML.children] using this.2
      obtain ⟨vc, hvc⟩ := Option.isSome_iff_exists.mp hv
      obtain ⟨ccs', hccs'⟩ := svc_some v ccs vc hvc
      rw [hccs']
      simp [oldOf, XML.children, hvc]
    | false =>
      simp only [Bool.false_eq_true, if_false]
      have ih := tryList_snd n v ccs
      cases hf : firstL n ccs with
      | none =>
        rw [hf] at ih
        simp only [Option.map_none', Option.map_eq_none'] at ih
        rw [ih]
        simp
      | some e' =>
        rw [hf] at ih
        simp only [Option.map_some'] at ih
        simp only [Option.map_eq_some'] at ih
        obtain ⟨p, hp, hsnd⟩ := ih
        rw [hp]
        cases p with
        | mk ccs' o => simpa using hsnd

theorem tryList_snd (n v : String) (cs : XMLList) :
    (tryList n v cs).map Prod.snd = (firstL n cs).map oldOf := by
  cases cs with
  | nil => rfl
  | cons c cs =>
    rw [tryList, firstL]
    have ihe := tryElem_snd n v c
    cases he : firstE n c with
    | some e' =>
      rw [he] at ihe
      simp only [Option.map_some'] at ihe
      simp only [Option.map_eq_some'] at ihe
      obtain ⟨p, hp, hsnd⟩ := ihe
      rw [hp]
      cases p with
      | mk c' o => simpa using hsnd
    | none =>
      rw [he] at ihe
      simp only [Option.map_none', Option.map_eq_none'] at ihe
      rw [ihe]
      have iht := tryList_snd n v cs
      cases ht : tryList n v cs with
      | none =>
        rw [ht] at iht
        simp only [Option.map_none'] at iht
        simp [← iht]
      | some p =>
        rw [ht] at iht
        cases p with
        | mk cs' o =>
          simp only [Option.map_some'] at iht
          simp [← iht]

end

mutual

theorem tryElem_frame (n v : String) (e e' : XML) (old : Option String)
    (h : tryElem n v e = some (e', old)) : OneTextChangeE v old e e' := by
  cases e with
  | elem t a tx ccs =>
    rw [tryElem] at h
    cases hm : isMatch n (XML.elem t a tx ccs) with
    | true =>
      rw [hm] at h
      simp only [if_true] at h
      cases hs : setVersionChildren v ccs with
      | none => rw [hs] at h; simp at h
      | some p =>
        rw [hs] at h
        cases p with
        | mk o ccs' =>
          simp only [Option.some.injEq, Prod.mk.injEq] at h
          obtain ⟨h1, h2⟩ := h
          subst h2
          rw [← h1]
          exact .deep _ _ _ _ _ (svc_frame v ccs o ccs' hs)
    | false =>
      rw [hm] at h
      simp only [Bool.false_eq_true, if_false] at h
      cases ht : tryList n v ccs with
      | none => rw [ht] at h; simp at h
      | some p =>
        rw [ht] at h
        cases p with
        | mk ccs' o =>
          simp only [Option.some.injEq, Prod.mk.injEq] at h
          obtain ⟨h1, h2⟩ := h
          subst h2
          rw [← h1]
          exact .deep _ _ _ _ _ (tryList_frame n v ccs ccs' o ht)

theorem tryList_frame (n v : String) (cs cs' : XMLList) (old : Option String)
    (h : tryList n v cs = some (cs', old)) : OneTextChangeL v old cs cs' := by
  cases cs with
  | nil => simp [tryList] at h
  | cons c cs =>
    rw [tryList] at h
    cases he : tryElem n v c with
    | some p =>
      rw [he] at h
      cases p with
      | mk c' o =>
        simp only [Option.some.injEq, Prod.mk.injEq] at h
        obtain ⟨h1, h2⟩ := h
        subst h2
        rw [← h1]
        exact .head _ _ _ (tryElem_frame n v c c' o he)
    | none =>
      rw [he] at h
      cases ht : tryList n v cs with
      | none => rw [ht] at h; simp at h
      | some p =>
        rw [ht] at h
        cases p with
        | mk cs'' o =>
          simp only [Option.some.injEq, Prod.mk.injEq] at h
          obtain ⟨h1, h2⟩ := h
          subst h2
          rw [← h1]
          exact .tail _ _ _ (tryList_frame n v cs cs'' o ht)

end

theorem findChild_mem (q : QName) : ∀ (cs : XMLList) (a : XML),
    findChild q cs = some a → a ∈ cs.toList ∧ a.tag = q
  | .nil, a, h => by simp [findChild] at h
  | .cons c cs, a, h => by
      unfold findChild at h
      by_cases hc : c.tag = q
      · simp only [hc, if_true, Option.some.injEq] at h
        subst h
        exact ⟨by simp [XMLList.toList], hc⟩
      · simp only [hc, if_false] at h
        obtain ⟨hm, ht⟩ := findChild_mem q cs a h
        exact ⟨by simp [XMLList.toList, hm], ht⟩

theorem descE_self (e : XML) : e ∈ descE e := by
  cases e with
  | elem t a tx ccs => rw [descE]; exact List.mem_cons_self _ _

theorem mem_descL_of_toList : ∀ (cs : XMLList) (x : XML), x ∈ cs.toList → x ∈ descL cs
  | .nil, x, h => by simp [XMLList.toList] at h
  | .cons c cs, x, h => by
      rw [XMLList.toList] at h
      rw [descL, List.mem_append]
      rcases List.mem_cons.mp h with h' | h'
      · subst h'
        exact Or.inl (descE_self x)
      · exact Or.inr (mem_descL_of_toList cs x h')

mutual

theorem descE_closed (e e' x : XML) (he : e' ∈ descE e) (hx : x ∈ descL e'.children) :
    x ∈ descE e := by
  cases e with
  | elem t a tx ccs =>
    rw [descE] at he ⊢
    rcases List.mem_cons.mp he with h | h
    · subst h
      exact List.mem_cons_of_mem _ hx
    · exact List.mem_cons_of_mem _ (descL_closed ccs e' x h hx)

theorem descL_closed (cs : XMLList) (e' x : XML) (he : e' ∈ descL cs)
    (hx : x ∈ descL e'.children) : x ∈ descL cs := by
  cases cs with
  | nil => simp [descL] at he
  | cons c cs =>
    rw [descL, List.mem_append] at he ⊢
    rcases he with h | h
    · exact Or.inl (descE_closed c e' x h hx)
    · exact Or.inr (descL_closed cs e' x h hx)

end

theorem tryList_eq_none_iff (n v : String) (cs : XMLList) :
    tryList n v cs = none ↔ firstL n cs = none := by
  constructor
  · intro h
    have hs := tryList_snd n v cs
    rw [h] at hs
    simpa [Option.map_eq_none'] using hs.symm
  · intro h
    have hs := tryList_snd n v cs
    rw [h] at hs
    simpa [Option.map_eq_none'] using hs

theorem firstL_eq_none_iff (n : String) (cs : XMLList) :
    firstL n cs = none ↔ ∀ e ∈ descL cs, ¬ isMatch n e = true := by
  rw [firstL_eq_find]
  exact List.find?_eq_none

theorem update_err_of_no_match (t : QName) (a : List (String × String)) (tx : Option String)
    (cs : XMLList) (library_name new_version : String)
    (h : ∀ e ∈ descL cs, ¬ isMatch library_name e = true) :
    update_library_version (some (.elem t a tx cs)) library_name new_version =
      (.err ("Library " ++ library_name ++ " not found in pom.xml"), some (.elem t a tx cs)) := by
  have hn : tryList library_name new_version cs = none :=
    (tryList_eq_none_iff _ _ _).mpr ((firstL_eq_none_iff _ _).mpr h)
  rw [update_library_version, hn]

/-! ## Concrete manifests used as inputs -/

/-- Manifest entry `<dependency><artifactId>lib</artifactId></dependency>` (no version). -/
def depNoVersion : XML :=
  .elem depTag [] none (.cons (.elem artifactIdTag [] (some "lib") .nil) .nil)

/-- Manifest entry with a version child: `lib` at `1.0`. -/
def depWithVersion : XML :=
  .elem depTag [] none
    (.cons (.elem artifactIdTag [] (some "lib") .nil)
      (.cons (.elem versionTag [] (some "1.0") .nil) .nil))

/-- A POM whose dependency list holds `depNoVersion` then `depWithVersion`:
two entries with the same artifact identifier, the first lacking a version
child. -/
def pomTwoDeps : XML :=
  .elem ⟨mavenNS, "project"⟩ [] none
    (.cons (.elem ⟨mavenNS, "dependencies"⟩ [] none
      (.cons depNoVersion (.cons depWithVersion .nil))) .nil)

/-- Document `pomTwoDeps` after the code's rewrite: the second entry's version set. -/
def pomTwoDepsUpdated : XML :=
  .elem ⟨mavenNS, "project"⟩ [] none
    (.cons (.elem ⟨mavenNS, "dependencies"⟩ [] none
      (.cons depNoVersion
        (.cons (.elem depTag [] none
          (.cons (.elem artifactIdTag [] (some "lib") .nil)
            (.cons (.elem versionTag [] (some "2.0") .nil) .nil))) .nil))) .nil)

/-- A POM with a single versioned dependency `lib 1.0`. -/
def pomOneDep : XML :=
  .elem ⟨mavenNS, "project"⟩ [] none
    (.cons (.elem ⟨mavenNS, "dependencies"⟩ [] none
      (.cons depWithVersion .nil)) .nil)

/-- A POM whose elements carry no namespace at all, with an `artifactId`
whose text is exactly `"lib"`. -/
def pomNoNamespace : XML :=
  .elem ⟨"", "project"⟩ [] none
    (.cons (.elem ⟨"", "dependencies"⟩ [] none
      (.cons (.elem ⟨"", "dependency"⟩ [] none
        (.cons (.elem ⟨"", "artifactId"⟩ [] (some "lib") .nil)
          (.cons (.elem ⟨"", "version"⟩ [] (some "1.0") .nil) .nil))) .nil)) .nil)

/-! ## C1 -/

/-- C1, counterexample: in `pomTwoDeps` the first dependency entry whose
`artifactId` equals `"lib"` is `depNoVersion`, which has no `version`
child; the claim says the call must return an Error without modifying the
file, but the code skips ahead to the second same-named entry, updates it,
and reports success. -/
theorem C1_counterexample :
    (descL pomTwoDeps.children).find? (hasArtifact "lib") = some depNoVersion ∧
    findChild versionTag depNoVersion.children = none ∧
    update_library_version (some pomTwoDeps) "lib" "2.0" =
      (.ok "Updated lib from 1.0 to 2.0", some pomTwoDepsUpdated) ∧
    pomTwoDepsUpdated ≠ pomTwoDeps := by
  refine ⟨by rfl, by rfl, by rfl, by decide⟩

/-- C1 (amended): the update affects the first dependency entry, in document
order, whose artifact identifier equals the requested name AND which has a
version child; a matching entry lacking a version child is skipped in favor
of later entries.  An Error (with the file unmodified) is returned exactly
when no entry both matches and has a version child, and on success the
reported old version is that first rewritable entry's version text. -/
theorem C1_theorem (t : QName) (a : List (String × String)) (tx : Option String)
    (cs : XMLList) (library_name new_version : String) :
    ((∀ e ∈ descL cs, ¬ isMatch library_name e = true) →
      update_library_version (some (.elem t a tx cs)) library_name new_version =
        (.err ("Library " ++ library_name ++ " not found in pom.xml"),
         some (.elem t a tx cs))) ∧
    (∀ e, (descL cs).find? (isMatch library_name) = some e →
      ∃ cs', update_library_version (some (.elem t a tx cs)) library_name new_version =
        (.ok ("Updated " ++ library_name ++ " from " ++ pyStr (oldOf e) ++ " to " ++
          new_version), some (.elem t a tx cs'))) := by
  constructor
  · exact update_err_of_no_match t a tx cs library_name new_version
  · intro e hf
    have hfl : firstL library_name cs = some e := by rw [firstL_eq_find]; exact hf
    have hs := tryList_snd library_name new_version cs
    rw [hfl] at hs
    simp only [Option.map_some'] at hs
    rw [Option.map_eq_some'] at hs
    obtain ⟨p, hp, hsnd⟩ := hs
    cases p with
    | mk cs' o =>
      refine ⟨cs', ?_⟩
      rw [update_library_version, hp]
      simp only at hsnd
      rw [hsnd]

/-- C1 witness: on `pomTwoDeps`, the first rewritable entry is
`depWithVersion` (the second same-named entry), and the amended theorem
applies there. -/
theorem C1_witness :
    (descL pomTwoDeps.children).find? (isMatch "lib") = some depWithVersion ∧
    (∃ cs', update_library_version (some pomTwoDeps) "lib" "2.0" =
      (.ok ("Updated lib from " ++ pyStr (oldOf depWithVersion) ++ " to 2.0"),
       some (.elem ⟨mavenNS, "project"⟩ [] none cs'))) := by
  refine ⟨by rfl, ?_⟩
  exact ( C1_theorem ⟨mavenNS, "project"⟩ [] none pomTwoDeps.children "lib" "2.0").2
    depWithVersion (by rfl)

/-! ## C4 -/

/-- C4: for every manifest containing a dependency entry with the target
artifact identifier and a version child, the call succeeds; the persisted
document differs from the old one in exactly one element text — a `version`
element's text becomes the new version — and the old version reported in
the returned message is exactly the value previously stored at that
element.  (The document tree is the persisted content; the XML
serializer/parser is the spec's external collaborator.) -/
theorem C4_theorem (t : QName) (a : List (String × String)) (tx : Option String)
    (cs : XMLList) (library_name new_version : String) (e : XML)
    (he : e ∈ descL cs) (hm : isMatch library_name e = true) :
    ∃ cs' old, update_library_version (some (.elem t a tx cs)) library_name new_version =
      (.ok ("Updated " ++ library_name ++ " from " ++ pyStr old ++ " to " ++ new_version),
       some (.elem t a tx cs')) ∧
    OneTextChangeL new_version old cs cs' := by
  cases ht : tryList library_name new_version cs with
  | none =>
    exfalso
    have := (firstL_eq_none_iff library_name cs).mp ((tryList_eq_none_iff _ _ _).mp ht)
    exact this e he hm
  | some p =>
    cases p with
    | mk cs' old =>
      refine ⟨cs', old, ?_, tryList_frame library_name new_version cs cs' old ht⟩
      rw [update_library_version, ht]

/-- C4 witness: on the one-dependency POM, updating `lib` to `2.0` succeeds,
reports old version `1.0`, and changes exactly the one version text. -/
theorem C4_witness :
    depWithVersion ∈ descL pomOneDep.children ∧
    isMatch "lib" depWithVersion = true ∧
    ∃ cs' old, update_library_version (some pomOneDep) "lib" "2.0" =
      (.ok ("Updated lib from " ++ pyStr old ++ " to " ++ "2.0"),
       some (.elem ⟨mavenNS, "project"⟩ [] none cs')) ∧
    OneTextChangeL "2.0" old pomOneDep.children cs' := by
  refine ⟨by decide, by rfl, ?_⟩
  exact C4_theorem ⟨mavenNS, "project"⟩ [] none pomOneDep.children "lib" "2.0"
    depWithVersion (by decide) (by rfl)

/-! ## C5 -/

/-- C5: `update_library_version` is atomic on error — a missing manifest
yields the NotFound-style error with nothing written; a manifest with no
entry carrying the target artifact identifier yields an Error with the
document unchanged; and on every error result whatsoever the file state
after the call equals the file state before it. -/
theorem C5_theorem (library_name new_version : String) :
    (update_library_version none library_name new_version =
      (.err "pom.xml not found in the directory", none)) ∧
    (∀ (t : QName) (a : List (String × String)) (tx : Option String) (cs : XMLList),
      (∀ e ∈ descL cs, ¬ hasArtifact library_name e = true) →
      update_library_version (some (.elem t a tx cs)) library_name new_version =
        (.err ("Library " ++ library_name ++ " not found in pom.xml"),
         some (.elem t a tx cs))) ∧
    (∀ (pom : Option XML) (msg : String),
      (update_library_version pom library_name new_version).1 = .err msg →
      (update_library_version pom library_name new_version).2 = pom) := by
  refine ⟨rfl, ?_, ?_⟩
  · intro t a tx cs h
    refine update_err_of_no_match t a tx cs library_name new_version ?_
    intro e he hm
    exact h e he (by
      unfold isMatch at hm
      exact ((Bool.and_eq_true _ _).mp hm).1)
  · intro pom msg h
    cases pom with
    | none => rfl
    | some doc =>
      cases doc with
      | elem t a tx cs =>
        cases ht : tryList library_name new_version cs with
        | none => rw [update_library_version, ht]
        | some p =>
          exfalso
          cases p with
          | mk cs' old =>
            rw [update_library_version, ht] at h
            simp at h

/-- C5 witness: the three parts applied at concrete inputs — no manifest;
a manifest whose only dependency is named `other-lib`; and the error result
of that same call leaving the file unchanged. -/
theorem C5_witness :
    (update_library_version none "lib" "2.0" =
      (.err "pom.xml not found in the directory", none)) ∧
    (update_library_version (some pomOneDep) "other-lib" "2.0" =
      (.err "Library other-lib not found in pom.xml", some pomOneDep)) ∧
    (update_library_version (some pomOneDep) "other-lib" "2.0").2 = some pomOneDep := by
  refine ⟨( C5_theorem "lib" "2.0").1, ?_, ?_⟩
  · exact ( C5_theorem "other-lib" "2.0").2.1 ⟨mavenNS, "project"⟩ [] none
      pomOneDep.children (by decide)
  · exact ( C5_theorem "other-lib" "2.0").2.2 (some pomOneDep)
      "Library other-lib not found in pom.xml" (by rfl)

/-! ## C10 -/

/-- C10: the dependency search matches only under the Maven POM default
namespace — when every element locally named `dependency` (or every element
locally named `artifactId`) lies outside `http://maven.apache.org/POM/4.0.0`,
the call returns the not-found Error and leaves the document unchanged,
regardless of any `artifactId` text equal to the requested name. -/
theorem C10_theorem (t : QName) (a : List (String × String)) (tx : Option String)
    (cs : XMLList) (library_name new_version : String)
    (h : (∀ e ∈ descL cs, e.tag.name = "dependency" → ¬ e.tag.ns = mavenNS) ∨
         (∀ e ∈ descL cs, e.tag.name = "artifactId" → ¬ e.tag.ns = mavenNS)) :
    update_library_version (some (.elem t a tx cs)) library_name new_version =
      (.err ("Library " ++ library_name ++ " not found in pom.xml"),
       some (.elem t a tx cs)) := by
  refine update_err_of_no_match t a tx cs library_name new_version ?_
  intro e he hm
  have hart : hasArtifact library_name e = true := by
    unfold isMatch at hm
    exact ((Bool.and_eq_true _ _).mp hm).1
  unfold hasArtifact at hart
  have hdep : e.tag = depTag := by
    have := ((Bool.and_eq_true _ _).mp hart).1
    simpa using this
  rcases h with h | h
  · exact h e he (by rw [hdep]; rfl) (by rw [hdep]; rfl)
  · have hfind := ((Bool.and_eq_true _ _).mp hart).2
    cases hfc : findChild artifactIdTag e.children with
    | none => rw [hfc] at hfind; simp at hfind
    | some aa =>
      obtain ⟨hmem, htag⟩ := findChild_mem artifactIdTag e.children aa hfc
      have haa : aa ∈ descL cs :=
        descL_closed cs e aa he (mem_descL_of_toList e.children aa hmem)
      exact h aa haa (by rw [htag]; rfl) (by rw [htag]; rfl)

/-- C10 witness: on the namespace-free `pomNoNamespace`, whose `artifactId`
text is exactly the requested `"lib"`, the call errors and leaves the
document unchanged. -/
theorem C10_witness :
    (XML.elem ⟨"", "artifactId"⟩ [] (some "lib") .nil) ∈ descL pomNoNamespace.children ∧
    update_library_version (some pomNoNamespace) "lib" "2.0" =
      (.err "Library lib not found in pom.xml", some pomNoNamespace) := by
  refine ⟨by decide, ?_⟩
  exact C10_theorem ⟨"", "project"⟩ [] none pomNoNamespace.children "lib" "2.0"
    (Or.inl (by decide))

/-! ## Concrete directories and files used as inputs -/

/-- A descriptor file whose text mentions a dependency and the ecosystem
family (case-insensitively), but neither the literal library name nor
any import marker. -/
def xmlDepFile : SrcFile :=
  ⟨"pom.xml", "pom.xml", some "<dependency>Spring-Core</dependency>"⟩

/-- A file matched only by a generic ecosystem marker. -/
def fileMarker : SrcFile :=
  ⟨"A.java", "A.java", some "import org.springframework.beans;"⟩

/-- A file containing the literal library name. -/
def fileDirect : SrcFile :=
  ⟨"B.java", "B.java", some "uses spring-core here"⟩

/-- Walk order: the marker-matched file is discovered first. -/
def dirTwoFiles : CodeDir := ⟨[fileMarker, fileDirect], none⟩

/-- A manifest body longer than any truncation bound. -/
def bigPom : String := String.mk (List.replicate 2016 'a')

/-- A directory with no walkable files and an oversized `pom.xml`. -/
def dirNoFiles : CodeDir := ⟨[], some bigPom⟩

/-- A small source file containing the library name. -/
def fileSmall : SrcFile := ⟨"A.java", "A.java", some "uses mylib"⟩

/-- An external endpoint that always fails with a transport error. -/
def httpDown : String → HttpOutcome := fun _ => .exn "down"

/-! ## C2 -/

/-- C2, counterexample: with library `"spring-core"` the marker list is
non-empty; `xmlDepFile` contains neither the literal name nor any marker,
yet satisfies every condition of the dependency-declaration test
(`.xml` extension, the text `dependency`, the ecosystem family name
case-insensitively) — and is still not selected, because the
dependency-declaration branch is unreachable when the marker list is
non-empty. -/
theorem C2_counterexample :
    importsToCheck "spring-core" ≠ [] ∧
    strContains "<dependency>Spring-Core</dependency>" "spring-core" = false ∧
    (importsToCheck "spring-core").any
      (strContains "<dependency>Spring-Core</dependency>") = false ∧
    strEndsWith "pom.xml" ".xml" = true ∧
    strContains "<dependency>Spring-Core</dependency>" "dependency" = true ∧
    strContains (strLower "<dependency>Spring-Core</dependency>") "spring" = true ∧
    scan "spring-core" [xmlDepFile] = [] := by
  refine ⟨by decide, by decide, by decide, by decide, by decide, by decide, by decide⟩

/-- C2 (amended): the three relevance predicates fall through only up to the
marker branch — when the marker list is non-empty, a file containing neither
the literal name nor any marker is never selected (the
dependency-declaration test does not run); the dependency-declaration test
selects a file only when the marker list is empty. -/
theorem C2_theorem (library_name fname content : String) :
    (¬ importsToCheck library_name = [] →
      strContains content library_name = false →
      (∀ s ∈ importsToCheck library_name, strContains content s = false) →
      classifyContent library_name (importsToCheck library_name) fname content = none) ∧
    (importsToCheck library_name = [] →
      strContains content library_name = false →
      strEndsWith fname ".xml" = true →
      strContains content "dependency" = true →
      (strContains (strLower content) "spring" = true ∨
       strContains (strLower content) (strLower library_name) = true) →
      classifyContent library_name (importsToCheck library_name) fname content =
        some .dependencyDeclarationMatch) := by
  constructor
  · intro hne hname hmark
    have hany : (importsToCheck library_name).any (fun s => strContains content s) = false := by
      rw [List.any_eq_false]
      intro s hs
      rw [hmark s hs]
      simp
    have hempty : (importsToCheck library_name).isEmpty = false := by
      cases h : importsToCheck library_name with
      | nil => exact absurd h hne
      | cons a l => rfl
    rw [classifyContent, hname, hempty, hany]
    rfl
  · intro hemp hname hxml hdep hmark
    have hempty : (importsToCheck library_name).isEmpty = true := by
      rw [hemp]; rfl
    rw [classifyContent, hname, hempty]
    simp only [Bool.not_true, Bool.false_eq_true, if_false]
    rcases hmark with hm | hm <;> simp [hxml, hdep, hm]

/-- C2 witness: the non-selection branch at `xmlDepFile` with
`"spring-core"`, and the dependency-declaration branch at a non-ecosystem
library name `"MyLib"`. -/
theorem C2_witness :
    classifyContent "spring-core" (importsToCheck "spring-core") "pom.xml"
      "<dependency>Spring-Core</dependency>" = none ∧
    classifyContent "MyLib" (importsToCheck "MyLib") "pom.xml"
      "<dependency>mylib</dependency>" = some .dependencyDeclarationMatch := by
  constructor
  · exact ( C2_theorem "spring-core" "pom.xml" "<dependency>Spring-Core</dependency>").1
      (by decide) (by decide) (by decide)
  · exact ( C2_theorem "MyLib" "pom.xml" "<dependency>mylib</dependency>").2
      (by decide) (by decide) (by decide) (by decide) (Or.inr (by decide))

/-! ## C3 -/

theorem strmk_length (l : List Char) : (String.mk l).length = l.length := rfl

theorem truncate_length (c : String) :
    (truncateContent c).length ≤ 2000 + ("... (truncated)" : String).length := by
  rw [truncateContent]
  by_cases h : 2000 < c.length
  · rw [if_pos h, String.length_append, strmk_length, List.length_take]
    have : min 2000 c.data.length ≤ 2000 := min_le_left _ _
    omega
  · rw [if_neg h]
    omega

/-- C3, counterexample: when the heuristics match nothing, the fallback
`pom.xml` candidate enters the snippet block with its full content — here
2016 characters, more than 2000 plus the truncation suffix. -/
theorem C3_counterexample :
    snippetFiles "mylib" dirNoFiles = [⟨"pom.xml", bigPom, none⟩] ∧
    2000 + ("... (truncated)" : String).length < bigPom.length := by
  refine ⟨by rfl, ?_⟩
  have h1 : bigPom.length = 2016 := by
    rw [bigPom, strmk_length, List.length_replicate]
  rw [h1]
  decide

/-- C3 (amended): every heuristically matched candidate's stored content is
at most 2000 characters plus the fixed truncation suffix, but the fallback
manifest candidate is stored untruncated, with no length bound. -/
theorem C3_theorem (library_name : String) :
    (∀ (walk : List SrcFile) (c : Candidate), c ∈ scan library_name walk →
      c.content.length ≤ 2000 + ("... (truncated)" : String).length) ∧
    (∀ (dir : CodeDir) (pc : String), scan library_name dir.walk = [] →
      dir.pomContent = some pc →
      candidates library_name dir = [⟨"pom.xml", pc, none⟩]) := by
  constructor
  · intro walk c hc
    rw [scan, List.mem_filterMap] at hc
    obtain ⟨f, _, hf⟩ := hc
    rw [classifyFile] at hf
    split at hf
    · split at hf
      · simp at hf
      · split at hf
        · simp only [Option.some.injEq] at hf
          subst hf
          exact truncate_length _
        · simp at hf
    · simp at hf
  · intro dir pc hscan hpom
    rw [candidates, hscan, hpom]
    rfl

/-- C3 witness: a matched file longer than 2000 characters is stored
truncated to the bound, and the oversized fallback manifest is stored
whole. -/
theorem C3_witness :
    (⟨"A.java", "uses mylib", some .directNameMatch⟩ : Candidate) ∈ scan "mylib" [fileSmall] ∧
    ("uses mylib" : String).length ≤ 2000 + ("... (truncated)" : String).length ∧
    candidates "mylib" dirNoFiles = [⟨"pom.xml", bigPom, none⟩] := by
  refine ⟨by decide, ?_, ?_⟩
  · exact ( C3_theorem "mylib").1 [fileSmall] ⟨"A.java", "uses mylib", some .directNameMatch⟩
      (by decide)
  · exact ( C3_theorem "mylib").2 dirNoFiles bigPom (by rfl) (by rfl)

/-! ## C7 -/

/-- C7: when the heuristics select zero files, the scanner falls back to the
root manifest as the sole candidate when it is present and readable, and
otherwise proceeds with an empty candidate list: the check still runs the
normal pipeline, its outcome determined solely by the HTTP exchange — an
empty snippet block is not an error. -/
theorem C7_theorem (library_name : String) (dir : CodeDir)
    (h : scan library_name dir.walk = []) :
    (∀ pc, dir.pomContent = some pc →
      candidates library_name dir = [⟨"pom.xml", pc, none⟩]) ∧
    (dir.pomContent = none →
      candidates library_name dir = [] ∧
      ∀ old_version new_version http,
        check_compatibility dir library_name old_version new_version http =
          clientResult (http (buildPrompt library_name old_version new_version
            (snippetsText [])))) := by
  constructor
  · intro pc hpc
    rw [candidates, h, hpc]
    rfl
  · intro hpc
    have hcand : candidates library_name dir = [] := by
      rw [candidates, h, hpc]
      rfl
    refine ⟨hcand, ?_⟩
    intro old_version new_version http
    rw [check_compatibility, snippetFiles, hcand]
    rfl

/-- C7 witness: both fallback shapes at concrete directories, and the
empty-directory check running the pipeline to the client's result. -/
theorem C7_witness :
    candidates "lib" ⟨[], some "<project/>"⟩ = [⟨"pom.xml", "<project/>", none⟩] ∧
    candidates "lib" ⟨[], none⟩ = [] ∧
    check_compatibility ⟨[], none⟩ "lib" "1.0" "2.0" httpDown =
      clientResult (httpDown (buildPrompt "lib" "1.0" "2.0" (snippetsText []))) := by
  refine ⟨?_, ?_, ?_⟩
  · exact ( C7_theorem "lib" ⟨[], some "<project/>"⟩ (by rfl)).1 "<project/>" (by rfl)
  · exact ( ( C7_theorem "lib" ⟨[], none⟩ (by rfl)).2 (by rfl)).1
  · exact ( ( C7_theorem "lib" ⟨[], none⟩ (by rfl)).2 (by rfl)).2 "1.0" "2.0" httpDown

/-! ## C8 -/

/-- C8: the snippet block rendered into the prompt holds at most 5 files —
exactly the first 5 candidates in discovery order (a prefix of the candidate
list) — and the prompt is built from precisely those files. -/
theorem C8_theorem (library_name old_version new_version : String) (dir : CodeDir)
    (http : String → HttpOutcome) :
    snippetFiles library_name dir = (candidates library_name dir).take 5 ∧
    (snippetFiles library_name dir).length ≤ 5 ∧
    snippetFiles library_name dir <+: candidates library_name dir ∧
    check_compatibility dir library_name old_version new_version http =
      clientResult (http (buildPrompt library_name old_version new_version
        (snippetsText (snippetFiles library_name dir)))) := by
  refine ⟨rfl, ?_, ?_, rfl⟩
  · rw [snippetFiles, List.length_take]
    exact min_le_left _ _
  · exact ⟨(candidates library_name dir).drop 5, List.take_append_drop 5 _⟩

/-! ## C9 -/

/-- C9, counterexample: with library `"spring-core"`, a directory whose walk
meets a marker-only file before the file containing the literal name yields
the snippet block with the `DirectNameMatch` candidate AFTER the
marker-matched one — not ahead of it, as the claim states. -/
theorem C9_counterexample :
    snippetFiles "spring-core" dirTwoFiles =
      [⟨"A.java", "import org.springframework.beans;", some .importMatch⟩,
       ⟨"B.java", "uses spring-core here", some .directNameMatch⟩] ∧
    (snippetFiles "spring-core" dirTwoFiles).map Candidate.reason =
      [some .importMatch, some .directNameMatch] := by
  refine ⟨by decide, by decide⟩

/-- C9 (amended): a readable allow-listed file whose text contains the
literal library name always yields a candidate with reason
`DirectNameMatch`, and the candidate list preserves discovery order — the
scanner distributes over the walk, placing the direct-match candidate
exactly at its discovery position (so it precedes marker-only files only
when discovered earlier). -/
theorem C9_theorem (library_name : String) (xs ys : List SrcFile) (f : SrcFile)
    (c : String) (hf : f.content = some c) (hext : hasSourceExt f.fname = true)
    (hc : strContains c library_name = true) :
    classifyFile library_name f =
      some ⟨f.relPath, truncateContent c, some .directNameMatch⟩ ∧
    scan library_name (xs ++ [f] ++ ys) =
      scan library_name xs ++
        [⟨f.relPath, truncateContent c, some .directNameMatch⟩] ++
        scan library_name ys := by
  have hclass : classifyFile library_name f =
      some ⟨f.relPath, truncateContent c, some .directNameMatch⟩ := by
    simp only [classifyFile, hext, if_true, hf, classifyContent, hc]
  refine ⟨hclass, ?_⟩
  rw [scan, List.filterMap_append, List.filterMap_append]
  rw [scan, scan, List.filterMap_cons, hclass]
  rfl

/-- C9 witness: in `dirTwoFiles` the direct-name file `fileDirect` is
classified `DirectNameMatch` and sits exactly after the earlier-discovered
marker-matched file. -/
theorem C9_witness :
    classifyFile "spring-core" fileDirect =
      some ⟨"B.java", "uses spring-core here", some .directNameMatch⟩ ∧
    scan "spring-core" ([fileMarker] ++ [fileDirect] ++ []) =
      scan "spring-core" [fileMarker] ++
        [⟨"B.java", "uses spring-core here", some .directNameMatch⟩] ++
        scan "spring-core" [] := by
  have h := C9_theorem "spring-core" [fileMarker] [] fileDirect "uses spring-core here"
    (by rfl) (by decide) (by decide)
  exact ⟨h.1, h.2⟩

/-! ## C6 -/

/-- C6: the compatibility check returns a structured result for every HTTP
outcome — the pipeline's value is exactly the client's handling of the
response to the built prompt; status 200 with a well-formed body yields
Success with the first textual content block; a 200 body whose extraction
raises yields Error with the exception's message; any non-200 status yields
Error carrying the raw response body; a transport exception yields Error
with its message; and every outcome maps to either a Success or an Error
(nothing escapes as a crash). -/
theorem C6_theorem (dir : CodeDir) (library_name old_version new_version : String)
    (http : String → HttpOutcome) :
    check_compatibility dir library_name old_version new_version http =
      clientResult (http (buildPrompt library_name old_version new_version
        (snippetsText (snippetFiles library_name dir)))) ∧
    (∀ body t, clientResult (.resp 200 body (.ok t)) = .success t) ∧
    (∀ body m, clientResult (.resp 200 body (.error m)) =
      .error ("Error communicating with Claude API: " ++ m)) ∧
    (∀ status body fb, ¬ status = 200 →
      clientResult (.resp status body fb) =
        .error ("Failed to get response from Claude API: " ++ body)) ∧
    (∀ m, clientResult (.exn m) =
      .error ("Error communicating with Claude API: " ++ m)) ∧
    (∀ o, (∃ s, clientResult o = .success s) ∨ (∃ msg, clientResult o = .error msg)) := by
  refine ⟨rfl, fun body t => rfl, fun body m => rfl, ?_, fun m => rfl, ?_⟩
  · intro status body fb hs
    unfold clientResult
    simp only [if_neg hs]
  · intro o
    cases o with
    | exn m => exact Or.inr ⟨_, rfl⟩
    | resp status body fb =>
      by_cases hs : status = 200
      · subst hs
        cases fb with
        | ok t => exact Or.inl ⟨t, rfl⟩
        | error m => exact Or.inr ⟨_, rfl⟩
      · exact Or.inr ⟨"Failed to get response from Claude API: " ++ body,
          by unfold clientResult; simp only [if_neg hs]⟩

/-- C6 witness: the four response shapes at concrete values, and the
pipeline equality at a concrete failing endpoint. -/
theorem C6_witness :
    check_compatibility dirTwoFiles "spring-core" "5.0" "6.0" httpDown =
      clientResult (httpDown (buildPrompt "spring-core" "5.0" "6.0"
        (snippetsText (snippetFiles "spring-core" dirTwoFiles)))) ∧
    clientResult (.resp 200 "raw" (.ok "fine")) = .success "fine" ∧
    clientResult (.resp 200 "raw" (.error "bad json")) =
      .error ("Error communicating with Claude API: " ++ "bad json") ∧
    clientResult (.resp 500 "boom" (.ok "x")) =
      .error ("Failed to get response from Claude API: " ++ "boom") ∧
    clientResult (.exn "timeout") =
      .error ("Error communicating with Claude API: " ++ "timeout") := by
  refine ⟨?_, ?_, ?_, ?_, ?_⟩
  · exact ( C6_theorem dirTwoFiles "spring-core" "5.0" "6.0" httpDown).1
  · exact ( C6_theorem dirTwoFiles "spring-core" "5.0" "6.0" httpDown).2.1 "raw" "fine"
  · exact ( C6_theorem dirTwoFiles "spring-core" "5.0" "6.0" httpDown).2.2.1 "raw" "bad json"
  · exact ( C6_theorem dirTwoFiles "spring-core" "5.0" "6.0" httpDown).2.2.2.1 500 "boom"
      (.ok "x") (by decide)
  · exact ( C6_theorem dirTwoFiles "spring-core" "5.0" "6.0" httpDown).2.2.2.2.1 "timeout"

end Server
